import Mathlib

/-!
Verification of the `ugly-global` crate: mutable global variables built from
`once_cell::sync::OnceCell` plus `std::sync::Mutex`.

The embedding follows the source files:

* `src/lib.rs`    — `pub struct Global<T>(OnceCell<Mutex<T>>)` with methods
  `new`, `fetch` (panics `"global uninitialized"` on an empty cell and
  `"global lock poisoned"` on a poisoned mutex) and `init` (panics
  `"initialization failed"` when `OnceCell::set` rejects a second value).
* `src/sync.rs`   — `pub type Global<T> = OnceCell<Mutex<RefCell<T>>>` with
  free functions `fetch` / `init` and a `fetch!` macro that applies
  `RefCell::get_mut` to the mutex guard.
* `examples/demo-sync.rs` — the demo that increments `x` and `y` of a shared
  pair and prints `x + y`.
* `thread-local-poc/global.rs` — the thread-confined variant
  `OnceCell<RefCell<T>>` inside `thread_local!`, with `get` (via
  `Option::unwrap` and `RefCell::borrow_mut`) and `init` (panics `"oops"`).

`OnceCell` contents are modelled as `Option`, a `Mutex` as a record of its
locked bit, poison bit and payload, and a `RefCell` as a borrow bit plus
payload.  Panics are modelled as explicit error outcomes carrying the
violated condition; the exact panic message of each call site is kept in
separate diagnostic functions.
-/

namespace UglyGlobal

/-- The failure taxonomy of the crate: `fetch` before `init`, a second
`init`, and a poisoned lock. -/
inductive Cond : Type
  | uninitialized
  | alreadyInitialized
  | corrupted
deriving DecidableEq, Repr

/-- State of a `std::sync::Mutex<T>`: whether some guard is currently live,
whether a panicking holder poisoned it, and the protected payload. -/
structure MutexM (T : Type) where
  locked : Bool
  poisoned : Bool
  payload : T
deriving DecidableEq, Repr

/-- State of a `std::cell::RefCell<T>`: whether a borrow is outstanding,
and the contained value. -/
structure RefCellM (T : Type) where
  borrowed : Bool
  value : T
deriving DecidableEq, Repr

/-- `src/lib.rs`: `pub struct Global<T>(OnceCell<Mutex<T>>)`.  The
`OnceCell` is empty (`none`) until the one-shot `set` fills it. -/
structure Global (T : Type) where
  cell : Option (MutexM T)
deriving DecidableEq, Repr

/-- `Global::new`: `Global(OnceCell::new())`, an empty cell. -/
def Global.new {T : Type} : Global T := ⟨none⟩

/-- Possible outcomes of one `fetch` call: suspend on a held lock, panic
with a condition, or return a `MutexGuard` dereferencing to the payload. -/
inductive FetchOutcome (T : Type) : Type
  | blocks
  | panics (c : Cond)
  | guard (v : T)
deriving DecidableEq, Repr

/-- `Global::fetch`:
`self.0.get().expect("global uninitialized").lock().expect("global lock poisoned")`.
`OnceCell::get` never blocks; on an empty cell `expect` panics before any
lock is touched.  `Mutex::lock` suspends while another guard is live, and
once acquired reports poison from a previous panicking holder. -/
def Global.fetch {T : Type} (g : Global T) : FetchOutcome T :=
  match g.cell with
  | none => .panics .uninitialized
  | some m =>
    if m.locked then .blocks
    else if m.poisoned then .panics .corrupted
    else .guard m.payload

/-- `Global::init`: `if self.0.set(Mutex::new(v)).is_err() { panic!(...) }`.
`OnceCell::set` stores `Mutex::new(v)` (unlocked, unpoisoned) when the cell
is empty and rejects the new value, leaving the cell untouched, when it is
already filled.  The pair returned is (outcome, cell state afterwards). -/
def Global.init {T : Type} (g : Global T) (v : T) : Except Cond Unit × Global T :=
  match g.cell with
  | some _ => (.error .alreadyInitialized, g)
  | none => (.ok (), ⟨some ⟨false, false, v⟩⟩)

/-- The panic message of each failure call site in `src/lib.rs`. -/
def libPanicMsg : Cond → String
  | .uninitialized => "global uninitialized"
  | .corrupted => "global lock poisoned"
  | .alreadyInitialized => "initialization failed"

/-- Diagnostic carried by an abort inside `Global::fetch`.  The method
takes only `&self`; the declared name of the cell (the `$x:ident` of the
`global_vars!` macro) is never passed in, so the message cannot depend on
it — the `cellName` argument is unused, exactly as in the source. -/
def libFetchDiag {T : Type} (_cellName : String) (g : Global T) : Option String :=
  match g.fetch with
  | .panics c => some (libPanicMsg c)
  | _ => none

/-- Diagnostic carried by an abort inside `Global::init`; as with `fetch`,
the cell's declared name is not available to the panic site. -/
def libInitDiag {T : Type} (_cellName : String) (g : Global T) (v : T) : Option String :=
  match (g.init v).1 with
  | .error c => some (libPanicMsg c)
  | .ok _ => none

/-- Boolean substring test on strings, used to ask whether a diagnostic
mentions a cell's name. -/
def strContains (needle hay : String) : Bool :=
  hay.toList.tails.any (fun t => needle.toList.isPrefixOf t)

/-! ### The interior-mutability variant: `src/sync.rs` -/

/-- `src/sync.rs`: `pub type Global<T> = OnceCell<Mutex<RefCell<T>>>`. -/
def SyncGlobal (T : Type) : Type := Option (MutexM (RefCellM T))

/-- `sync::fetch`:
`x.get().expect("global uninitialized").lock().expect("global mutex failed")`.
The guard it returns is a `MutexGuard<RefCell<T>>`. -/
def syncFetch {T : Type} (x : SyncGlobal T) : FetchOutcome (RefCellM T) :=
  match x with
  | none => .panics .uninitialized
  | some m =>
    if m.locked then .blocks
    else if m.poisoned then .panics .corrupted
    else .guard m.payload

/-- The `fetch!` macro of `src/sync.rs` applies `RefCell::get_mut` to the
guard returned by `sync::fetch` to obtain `&mut T`.  `get_mut` works on an
exclusive reference, so it succeeds regardless of the borrow flag. -/
def syncFetchMut {T : Type} (x : SyncGlobal T) : FetchOutcome T :=
  match syncFetch x with
  | .blocks => .blocks
  | .panics c => .panics c
  | .guard rc => .guard rc.value

/-- `sync::init`:
`if x.set(Mutex::new(RefCell::new(v))).is_err() { panic!("initialization failed") }`. -/
def syncInit {T : Type} (x : SyncGlobal T) (v : T) : Except Cond Unit × SyncGlobal T :=
  match x with
  | some _ => (.error .alreadyInitialized, x)
  | none => (.ok (), some ⟨false, false, ⟨false, v⟩⟩)

/-- The panic message of each failure call site in `src/sync.rs`. -/
def syncPanicMsg : Cond → String
  | .uninitialized => "global uninitialized"
  | .corrupted => "global mutex failed"
  | .alreadyInitialized => "initialization failed"

/-! ### Sequential traces over the public interface, for the
`lib.rs` / `sync.rs` comparison -/

/-- One call of the public interface of either variant. -/
inductive Op (T : Type) : Type
  | init (v : T)
  | fetch
deriving DecidableEq, Repr

/-- What the caller observes from one call: `init` succeeded, `fetch`
handed out access to a payload value, the call aborted with a condition,
or the call suspended. -/
inductive OpResult (T : Type) : Type
  | inited
  | value (v : T)
  | failed (c : Cond)
  | blocked
deriving DecidableEq, Repr

/-- One step of the `lib.rs` variant: apply a call to the cell, yielding
the next cell state and the caller-visible result. -/
def libStep {T : Type} (g : Global T) : Op T → Global T × OpResult T
  | .init v =>
    let (r, g') := g.init v
    (g', match r with | .ok _ => .inited | .error c => .failed c)
  | .fetch =>
    (g, match g.fetch with
        | .guard v => .value v
        | .panics c => .failed c
        | .blocks => .blocked)

/-- Run a sequence of calls against the `lib.rs` variant, collecting the
caller-visible result of each call. -/
def libRun {T : Type} (g : Global T) : List (Op T) → List (OpResult T)
  | [] => []
  | op :: ops =>
    let (g', r) := libStep g op
    r :: libRun g' ops

/-- One step of the `sync.rs` variant.  A `fetch` call goes through the
`fetch!` macro, so the caller sees the `&mut T` obtained by `get_mut`. -/
def syncStep {T : Type} (x : SyncGlobal T) : Op T → SyncGlobal T × OpResult T
  | .init v =>
    let (r, x') := syncInit x v
    (x', match r with | .ok _ => .inited | .error c => .failed c)
  | .fetch =>
    (x, match syncFetchMut x with
        | .guard v => .value v
        | .panics c => .failed c
        | .blocks => .blocked)

/-- Run a sequence of calls against the `sync.rs` variant. -/
def syncRun {T : Type} (x : SyncGlobal T) : List (Op T) → List (OpResult T)
  | [] => []
  | op :: ops =>
    let (x', r) := syncStep x op
    r :: syncRun x' ops

/-- Relation between a `lib.rs` cell and a `sync.rs` cell holding the same
abstract contents: both empty, or both filled with the same payload behind
a free, unpoisoned lock (the state `init` establishes). -/
def cellRel {T : Type} (g : Global T) (x : SyncGlobal T) : Prop :=
  (g.cell = none ∧ x = none) ∨
  (∃ v, g.cell = some ⟨false, false, v⟩ ∧ x = some ⟨false, false, ⟨false, v⟩⟩)

/-! ### The demo scenario: `examples/demo-sync.rs` -/

/-- The payload of the demo: `struct S { x: usize, y: usize }`. -/
structure PairS : Type where
  x : Nat
  y : Nat
deriving DecidableEq, Repr

/-- The body of `demo()` acting on the payload:
`s.x += 1; s.y += 2; let result = s.x + s.y;` — returns the mutated
payload and the `result` value the call observes. -/
def demoBody (s : PairS) : PairS × Nat :=
  let x' := s.x + 1
  let y' := s.y + 2
  (⟨x', y'⟩, x' + y')

/-- One whole `demo()` call against a `lib.rs` cell: `fetch!` the guard,
run the body through it, and drop the guard (which stores the mutated
payload back behind the free lock).  A call whose `fetch` does not return
a guard observes no result and leaves the cell as it was. -/
def demoCall (g : Global PairS) : Global PairS × Option Nat :=
  match g.fetch with
  | .guard s =>
    let (s', r) := demoBody s
    (⟨some ⟨false, false, s'⟩⟩, some r)
  | _ => (g, none)

/-- Run a list of payload-accessing calls serially against a cell,
collecting each call's observed result. -/
def runCalls : List (Global PairS → Global PairS × Option Nat) →
    Global PairS → Global PairS × List (Option Nat)
  | [], g => (g, [])
  | f :: fs, g =>
    let (g', r) := f g
    let (g'', rs) := runCalls fs g'
    (g'', r :: rs)

/-! ### The thread-confined variant: `thread-local-poc/global.rs` -/

/-- Outcome of one call on the thread-confined variant: a panic with a
condition from the taxonomy, the `RefCell` re-borrow panic, or a `RefMut`
accessor to the payload.  There is no lock in this variant, hence no
blocking outcome exists at all. -/
inductive LocalOutcome (T : Type) : Type
  | panics (c : Cond)
  | borrowPanic
  | refMut (v : T)
deriving DecidableEq, Repr

/-- `thread-local-poc/global.rs`: `type Global<T> = OnceCell<RefCell<T>>`;
`fn get<T>(x: &Global<T>) -> RefMut<T> { x.get().unwrap().borrow_mut() }`.
`unwrap` on the empty cell panics (the uninitialized condition);
`borrow_mut` panics if a borrow is already outstanding, and otherwise
hands out mutable access to the value.  Neither step can block. -/
def localGet {T : Type} (x : Option (RefCellM T)) : LocalOutcome T :=
  match x with
  | none => .panics .uninitialized
  | some rc => if rc.borrowed then .borrowPanic else .refMut rc.value

/-- `thread-local-poc/global.rs`:
`fn init<T>(x: &Global<T>, v: T) { if let Err(_) = x.set(RefCell::new(v)) { panic!("oops") } }`. -/
def localInit {T : Type} (x : Option (RefCellM T)) (v : T) :
    Except Cond Unit × Option (RefCellM T) :=
  match x with
  | some _ => (.error .alreadyInitialized, x)
  | none => (.ok (), some ⟨false, v⟩)

/-- The panic message of `init` in the thread-local proof of concept. -/
def tlpInitMsg : String := "oops"

/-- The message of the `Option::unwrap` panic reached by `get` on an
uninitialized thread-local cell (the standard-library text). -/
def tlpGetMsg : String := "called `Option::unwrap()` on a `None` value"

/-- The whole `demo()` of the proof of concept acting on one context's
cell: `get` the accessor, mutate `x` and `y`, observe `result`; the
`RefMut` is dropped at the end of the scope, clearing the borrow flag. -/
def localDemo (x : Option (RefCellM PairS)) : Option (RefCellM PairS) × Option Nat :=
  match localGet x with
  | .refMut s =>
    let (s', r) := demoBody s
    (some ⟨false, s'⟩, some r)
  | _ => (x, none)

/-- Operations a context can perform on its own thread-local cell. -/
inductive TLOp : Type
  | opInit (v : PairS)
  | opDemo
deriving DecidableEq, Repr

/-- Effect of one thread-local operation on one context's cell state. -/
def applyTLOp (op : TLOp) (x : Option (RefCellM PairS)) : Option (RefCellM PairS) :=
  match op with
  | .opInit v => (localInit x v).2
  | .opDemo => (localDemo x).1

/-- The `thread_local! { static X: Global<S> = OnceCell::new(); }`
declaration: every execution context (modelled by a `Nat` identifier) owns
its own instance of the cell under the one shared name `X`. -/
def TLState : Type := Nat → Option (RefCellM PairS)

/-- `X.with(|s| ...)` run in context `c`: the closure sees and replaces
only the instance belonging to `c`. -/
def runInCtx (c : Nat) : List TLOp → TLState → TLState
  | [], m => m
  | op :: ops, m => runInCtx c ops (Function.update m c (applyTLOp op (m c)))

/-! ### Concurrent counter increments through `fetch` guards

Each of `n` threads runs the program
`let mut g = CELL.fetch(); *g += 1; drop(g);` against one initialized
`Global<usize>` cell whose payload is the counter.  A thread's progress is
its control point: before `fetch`; holding the fresh guard; having read the
counter through the guard; having written the incremented value back; and
after dropping the guard.  The mutex semantics of `fetch` is the only
synchronization: acquiring requires the lock to be free, and reading or
writing the payload requires holding the guard, exactly as `MutexGuard`
dereferencing does. -/

/-- Control state of one thread of the counter experiment. -/
inductive TState : Type
  | idle
  | owner
  | reading (v : Nat)
  | wrote
  | finished
deriving DecidableEq, Repr

/-- Does this control state hold a live `MutexGuard`? -/
def TState.holdsGuard : TState → Bool
  | .idle => false
  | .owner => true
  | .reading _ => true
  | .wrote => true
  | .finished => false

/-- How many increments this thread has already committed to the counter. -/
def TState.contrib : TState → Nat
  | .wrote => 1
  | .finished => 1
  | _ => 0

/-- Global state of the experiment: which thread's guard is live (the
mutex's owner field), the counter stored in the cell's payload, and every
thread's control state. -/
structure Sys (n : Nat) : Type where
  lock : Option (Fin n)
  counter : Nat
  tstate : Fin n → TState

/-- All threads before their `fetch`, counter initialized to `0`, lock
free — the state right after `init(0)` and before any thread runs. -/
def Sys.start (n : Nat) : Sys n :=
  ⟨none, 0, fun _ => .idle⟩

/-- Interleaving semantics: any one thread takes its next instruction.
`acquire` is the return of `fetch`, possible only while no guard is live;
`read` and `write` are the two halves of `*g += 1`, possible only for the
guard holder; `release` is `drop(g)`, freeing the lock. -/
inductive Step {n : Nat} : Sys n → Sys n → Prop
  | acquire (s : Sys n) (t : Fin n) (ts : Fin n → TState)
      (h1 : s.tstate t = .idle) (h2 : s.lock = none)
      (h3 : ts t = .owner) (h4 : ∀ u, u ≠ t → ts u = s.tstate u) :
      Step s ⟨some t, s.counter, ts⟩
  | read (s : Sys n) (t : Fin n) (ts : Fin n → TState)
      (h1 : s.tstate t = .owner) (h2 : s.lock = some t)
      (h3 : ts t = .reading s.counter) (h4 : ∀ u, u ≠ t → ts u = s.tstate u) :
      Step s ⟨some t, s.counter, ts⟩
  | write (s : Sys n) (t : Fin n) (v : Nat) (ts : Fin n → TState)
      (h1 : s.tstate t = .reading v) (h2 : s.lock = some t)
      (h3 : ts t = .wrote) (h4 : ∀ u, u ≠ t → ts u = s.tstate u) :
      Step s ⟨some t, v + 1, ts⟩
  | release (s : Sys n) (t : Fin n) (ts : Fin n → TState)
      (h1 : s.tstate t = .wrote) (h2 : s.lock = some t)
      (h3 : ts t = .finished) (h4 : ∀ u, u ≠ t → ts u = s.tstate u) :
      Step s ⟨none, s.counter, ts⟩

/-- States the experiment can be in: anything some interleaving of the `n`
threads reaches from the start state. -/
def Reachable {n : Nat} (s : Sys n) : Prop :=
  Relation.ReflTransGen Step (Sys.start n) s

/-- The inductive invariant of the experiment: only the lock owner's
control state holds a guard; a value read through the guard is the current
counter; and the counter equals the number of committed increments. -/
def Inv {n : Nat} (s : Sys n) : Prop :=
  (∀ t, (s.tstate t).holdsGuard = true → s.lock = some t) ∧
  (∀ t v, s.tstate t = .reading v → v = s.counter) ∧
  s.counter = ∑ t, (s.tstate t).contrib

/-! ## Theorems -/

/-- C1: for every `Global` cell on which `init` has never been called (the
`OnceCell` is still empty), `fetch` signals the uninitialized condition:
it never blocks and never returns a guard. -/
theorem fetch_never_initialized_signals_uninitialized {T : Type} (g : Global T)
    (h : g.cell = none) :
    g.fetch = .panics .uninitialized ∧
    g.fetch ≠ .blocks ∧
    ∀ v : T, g.fetch ≠ .guard v := by
  have hf : g.fetch = .panics .uninitialized := by
    simp [Global.fetch, h]
  refine ⟨hf, by simp [hf], fun v => by simp [hf]⟩

/-- Witness for C1: the freshly constructed cell `Global::new` at payload
type `Nat`. -/
theorem fetch_never_initialized_signals_uninitialized_witness :
    (Global.new : Global Nat).cell = none ∧
    ((Global.new : Global Nat).fetch = .panics .uninitialized ∧
      (Global.new : Global Nat).fetch ≠ .blocks ∧
      ∀ v : Nat, (Global.new : Global Nat).fetch ≠ .guard v) :=
  ⟨rfl, fetch_never_initialized_signals_uninitialized Global.new rfl⟩

/-- C2: once `init` has succeeded, every subsequent `init` call fails with
the already-initialized condition, leaves the cell state unchanged, and the
stored payload remains the value from the first, winning call. -/
theorem second_init_fails_and_preserves_value {T : Type} (g : Global T) (v w : T)
    (h : (g.init v).1 = .ok ()) :
    (g.init v).2.init w = (.error .alreadyInitialized, (g.init v).2) ∧
    ((g.init v).2.init w).2.cell = some ⟨false, false, v⟩ := by
  cases hg : g.cell with
  | some m => simp [Global.init, hg] at h
  | none => simp [Global.init, hg]

/-- Witness for C2: a fresh `Global Nat` cell, first `init 1`, second
`init 2`. -/
theorem second_init_fails_and_preserves_value_witness :
    ((Global.new : Global Nat).init 1).1 = .ok () ∧
    (((Global.new : Global Nat).init 1).2.init 2 =
        (.error .alreadyInitialized, ((Global.new : Global Nat).init 1).2) ∧
      (((Global.new : Global Nat).init 1).2.init 2).2.cell = some ⟨false, false, 1⟩) :=
  ⟨rfl, second_init_fails_and_preserves_value Global.new 1 2 rfl⟩

/-- C3: on a fresh cell the first `init v` succeeds, and `fetch` then
returns a guard whose dereference is exactly `v`. -/
theorem fetch_after_first_init_returns_value {T : Type} (v : T) :
    ((Global.new : Global T).init v).1 = .ok () ∧
    ((Global.new : Global T).init v).2.fetch = .guard v := by
  constructor
  · rfl
  · simp [Global.new, Global.init, Global.fetch]

/-- C5: `fetch` on an initialized cell whose mutex was poisoned by a guard
holder that failed mid-access (poison set, lock released by the unwind)
signals the corrupted condition — distinct from the uninitialized and
already-initialized conditions — and never grants access to the payload. -/
theorem fetch_on_poisoned_signals_corrupted {T : Type} (g : Global T) (m : MutexM T)
    (hc : g.cell = some m) (hp : m.poisoned = true) (hl : m.locked = false) :
    g.fetch = .panics .corrupted ∧
    Cond.corrupted ≠ Cond.uninitialized ∧
    Cond.corrupted ≠ Cond.alreadyInitialized ∧
    ∀ v : T, g.fetch ≠ .guard v := by
  have hf : g.fetch = .panics .corrupted := by
    simp [Global.fetch, hc, hp, hl]
  exact ⟨hf, by decide, by decide, fun v => by simp [hf]⟩

/-- A list that is a permutation of a constant list is that list. -/
theorem eq_of_perm_replicate {α : Type} {a : α} {n : Nat} {l : List α}
    (h : l.Perm (List.replicate n a)) : l = List.replicate n a := by
  have hlen : l.length = n := by simpa using h.length_eq
  have hmem : ∀ b ∈ l, b = a := fun b hb => List.eq_of_mem_replicate (h.subset hb)
  rw [List.eq_replicate_length.mpr hmem, hlen]

/-- C4: starting from payload `{x: 0, y: 0}` in an initialized cell, three
serialized `demo()` calls (each doing `x += 1; y += 2; result = x + y`),
in any serialization order, observe exactly the results `{3, 6, 9}` and
leave the stored state at `x = 3, y = 6`. -/
theorem demo_serialized_results {l : List (Global PairS → Global PairS × Option Nat)}
    (h : l.Perm (List.replicate 3 demoCall)) :
    runCalls l ((Global.new : Global PairS).init ⟨0, 0⟩).2 =
      (⟨some ⟨false, false, ⟨3, 6⟩⟩⟩, [some 3, some 6, some 9]) ∧
    ((runCalls l ((Global.new : Global PairS).init ⟨0, 0⟩).2).2.filterMap id).toFinset =
      ({3, 6, 9} : Finset Nat) := by
  rw [eq_of_perm_replicate h]
  refine ⟨rfl, by decide⟩

/-- Witness for C4: the serialization that runs the three calls in
declaration order. -/
theorem demo_serialized_results_witness :
    (List.replicate 3 demoCall).Perm (List.replicate 3 demoCall) ∧
    (runCalls (List.replicate 3 demoCall) ((Global.new : Global PairS).init ⟨0, 0⟩).2 =
        (⟨some ⟨false, false, ⟨3, 6⟩⟩⟩, [some 3, some 6, some 9]) ∧
      ((runCalls (List.replicate 3 demoCall)
            ((Global.new : Global PairS).init ⟨0, 0⟩).2).2.filterMap id).toFinset =
        ({3, 6, 9} : Finset Nat)) :=
  ⟨List.Perm.refl _, demo_serialized_results (List.Perm.refl _)⟩

/-- C6 fails as stated: the abort diagnostic does not name the failing
cell.  On an uninitialized `fetch` the message is the constant
`"global uninitialized"`, which does not contain the demo cell's name
`GLOBAL_S`, and two cells declared under different names produce the
identical diagnostic, so no diagnostic can name the failing cell. -/
theorem diag_does_not_name_cell_counterexample :
    libFetchDiag "GLOBAL_S" (Global.new : Global Nat) = some "global uninitialized" ∧
    strContains "GLOBAL_S" "global uninitialized" = false ∧
    libFetchDiag "GLOBAL_S" (Global.new : Global Nat) =
      libFetchDiag "OTHER_CELL" (Global.new : Global Nat) :=
  ⟨rfl, by decide, rfl⟩

/-- C6 (amended): each failure aborts with a diagnostic determined by the
violated condition alone.  In `lib.rs` the three conditions carry the
distinct messages `"global uninitialized"`, `"global lock poisoned"` and
`"initialization failed"`; no diagnostic depends on (or names) the failing
cell, and the thread-local proof of concept aborts `init` with the fixed
message `"oops"`, which does not even mention initialization. -/
theorem diag_names_condition_only {T : Type} (n1 n2 : String) (g : Global T) (w : T) :
    libFetchDiag n1 g = libFetchDiag n2 g ∧
    libInitDiag n1 g w = libInitDiag n2 g w ∧
    (g.cell = none → libFetchDiag n1 g = some "global uninitialized") ∧
    (∀ m : MutexM T, g.cell = some m → m.locked = false → m.poisoned = true →
      libFetchDiag n1 g = some "global lock poisoned") ∧
    (g.cell ≠ none → libInitDiag n1 g w = some "initialization failed") ∧
    (∀ c c' : Cond, libPanicMsg c = libPanicMsg c' → c = c') ∧
    tlpInitMsg = "oops" ∧
    strContains "init" tlpInitMsg = false := by
  refine ⟨rfl, rfl, ?_, ?_, ?_, ?_, rfl, by decide⟩
  · intro h
    simp [libFetchDiag, Global.fetch, h, libPanicMsg]
  · intro m hm hl hp
    simp [libFetchDiag, Global.fetch, hm, hl, hp, libPanicMsg]
  · intro h
    cases hg : g.cell with
    | none => exact absurd hg h
    | some m => simp [libInitDiag, Global.init, hg, libPanicMsg]
  · intro c c' hcc
    cases c <;> cases c' <;> first | rfl | exact absurd hcc (by decide)

/-- Witness for the amended C6: concrete cells in each failing state, under
two different declared names. -/
theorem diag_names_condition_only_witness :
    libFetchDiag "A" (Global.new : Global Nat) = libFetchDiag "B" (Global.new : Global Nat) ∧
    libFetchDiag "A" (Global.new : Global Nat) = some "global uninitialized" ∧
    libFetchDiag "A" (⟨some ⟨false, true, 0⟩⟩ : Global Nat) = some "global lock poisoned" ∧
    libInitDiag "A" (⟨some ⟨false, false, 5⟩⟩ : Global Nat) 7 = some "initialization failed" :=
  ⟨(diag_names_condition_only "A" "B" Global.new 7).1,
    (diag_names_condition_only "A" "B" Global.new 7).2.2.1 rfl,
    (diag_names_condition_only "A" "B" ⟨some ⟨false, true, 0⟩⟩ 7).2.2.2.1
      ⟨false, true, 0⟩ rfl rfl rfl,
    (diag_names_condition_only "A" "B" ⟨some ⟨false, false, 5⟩⟩ 7).2.2.2.2.1 (by decide)⟩

/-- C8: the thread-confined variant mirrors the SharedCell contract minus
locking.  `get` on an empty cell signals the same `Cond.uninitialized`
that `Global::fetch` signals; `get` on an initialized cell with no
outstanding borrow returns the mutable accessor to the payload; a second
`init` fails with the same `Cond.alreadyInitialized` used by
`Global::init` and leaves the cell unchanged; and every `get` call
completes immediately with a panic, a re-borrow panic, or an accessor —
the `LocalOutcome` type has no blocking alternative at all. -/
theorem local_variant_mirrors_shared_contract {T : Type} (x : Option (RefCellM T)) (v : T) :
    (x = none → localGet x = .panics .uninitialized ∧
      (Global.new : Global T).fetch = .panics .uninitialized) ∧
    (∀ rc : RefCellM T, x = some rc → rc.borrowed = false →
      localGet x = .refMut rc.value) ∧
    (x.isSome = true → localInit x v = (.error .alreadyInitialized, x)) ∧
    ((∃ c, localGet x = .panics c) ∨ localGet x = .borrowPanic ∨
      ∃ w, localGet x = .refMut w) := by
  refine ⟨?_, ?_, ?_, ?_⟩
  · intro h
    subst h
    exact ⟨rfl, rfl⟩
  · intro rc hx hb
    subst hx
    simp [localGet, hb]
  · intro h
    cases x with
    | none => simp at h
    | some rc => rfl
  · cases x with
    | none => exact Or.inl ⟨.uninitialized, rfl⟩
    | some rc =>
      cases hb : rc.borrowed with
      | true => exact Or.inr (Or.inl (by simp [localGet, hb]))
      | false => exact Or.inr (Or.inr ⟨rc.value, by simp [localGet, hb]⟩)

/-- Witness for C8: the empty thread-local cell and one filled with the
payload `5` and no outstanding borrow. -/
theorem local_variant_mirrors_shared_contract_witness :
    (localGet (none : Option (RefCellM Nat)) = .panics .uninitialized ∧
      (Global.new : Global Nat).fetch = .panics .uninitialized) ∧
    localGet (some ⟨false, 5⟩ : Option (RefCellM Nat)) = .refMut 5 ∧
    localInit (some ⟨false, 5⟩ : Option (RefCellM Nat)) 7 =
      (.error .alreadyInitialized, some ⟨false, 5⟩) :=
  ⟨(local_variant_mirrors_shared_contract none 7).1 rfl,
    (local_variant_mirrors_shared_contract (some ⟨false, 5⟩) 7).2.1 ⟨false, 5⟩ rfl rfl,
    (local_variant_mirrors_shared_contract (some ⟨false, 5⟩) 7).2.2.1 rfl⟩

/-- Operations run by one context never touch another context's instance
of the thread-local cell. -/
theorem runInCtx_other {c1 c2 : Nat} (h : c1 ≠ c2) :
    ∀ (ops : List TLOp) (m : TLState), runInCtx c1 ops m c2 = m c2 := by
  intro ops
  induction ops with
  | nil => intro m; rfl
  | cons op rest ih =>
    intro m
    show runInCtx c1 rest (Function.update m c1 (applyTLOp op (m c1))) c2 = m c2
    rw [ih]
    exact Function.update_noteq (Ne.symm h) _ m

/-- C9: context isolation of the thread-local variant — any sequence of
`init` and `demo` operations performed by context `c1` leaves the state
owned by a different context `c2` unchanged, and therefore also leaves
unchanged what `c2` observes through `get`. -/
theorem local_cells_context_isolated (ops : List TLOp) (c1 c2 : Nat) (m : TLState)
    (h : c1 ≠ c2) :
    runInCtx c1 ops m c2 = m c2 ∧
    localGet (runInCtx c1 ops m c2) = localGet (m c2) := by
  have he := runInCtx_other h ops m
  exact ⟨he, by rw [he]⟩

/-- Witness for C9: context `0` initializes and mutates its cell under the
name `X` while context `1`, owning a cell under the same name, still sees
its own instance empty. -/
theorem local_cells_context_isolated_witness :
    (0 : Nat) ≠ 1 ∧
    (runInCtx 0 [TLOp.opInit ⟨0, 0⟩, TLOp.opDemo] (fun _ => none) 1 = none ∧
      localGet (runInCtx 0 [TLOp.opInit ⟨0, 0⟩, TLOp.opDemo] (fun _ => none) 1) =
        localGet (none : Option (RefCellM PairS))) :=
  ⟨by decide,
    local_cells_context_isolated [TLOp.opInit ⟨0, 0⟩, TLOp.opDemo] 0 1 (fun _ => none)
      (by decide)⟩

/-- Related cells stay related and produce identical caller-visible
results on every sequence of `init` / `fetch` calls. -/
theorem libRun_eq_syncRun {T : Type} :
    ∀ (ops : List (Op T)) (g : Global T) (x : SyncGlobal T),
      cellRel g x → libRun g ops = syncRun x ops := by
  intro ops
  induction ops with
  | nil => intro g x _; rfl
  | cons op rest ih =>
    intro g x hrel
    cases hrel with
    | inl hempty =>
      obtain ⟨hg, hx⟩ := hempty
      subst hx
      cases op with
      | init v =>
        show (libStep g (.init v)).2 :: libRun (libStep g (.init v)).1 rest =
          (syncStep none (.init v)).2 :: syncRun (syncStep none (.init v)).1 rest
        simp only [libStep, syncStep, Global.init, hg, syncInit]
        exact congrArg _ (ih _ _ (Or.inr ⟨v, rfl, rfl⟩))
      | fetch =>
        show (libStep g .fetch).2 :: libRun (libStep g .fetch).1 rest =
          (syncStep none .fetch).2 :: syncRun (syncStep none .fetch).1 rest
        simp only [libStep, syncStep, Global.fetch, hg, syncFetchMut, syncFetch]
        exact congrArg _ (ih _ _ (Or.inl ⟨hg, rfl⟩))
    | inr hfilled =>
      obtain ⟨v, hg, hx⟩ := hfilled
      subst hx
      cases op with
      | init w =>
        show (libStep g (.init w)).2 :: libRun (libStep g (.init w)).1 rest =
          (syncStep (some ⟨false, false, ⟨false, v⟩⟩) (.init w)).2 ::
            syncRun (syncStep (some ⟨false, false, ⟨false, v⟩⟩) (.init w)).1 rest
        simp only [libStep, syncStep, Global.init, hg, syncInit]
        exact congrArg _ (ih _ _ (Or.inr ⟨v, hg, rfl⟩))
      | fetch =>
        show (libStep g .fetch).2 :: libRun (libStep g .fetch).1 rest =
          (syncStep (some ⟨false, false, ⟨false, v⟩⟩) .fetch).2 ::
            syncRun (syncStep (some ⟨false, false, ⟨false, v⟩⟩) .fetch).1 rest
        simp only [libStep, syncStep, Global.fetch, hg, syncFetchMut, syncFetch]
        exact congrArg _ (ih _ _ (Or.inr ⟨v, hg, rfl⟩))

/-- C10: the direct-lock variant of `src/lib.rs` and the
interior-mutability variant of `src/sync.rs` are observationally
equivalent at the public interface — starting from fresh cells, every
sequence of `init` and `fetch` calls succeeds and fails in exactly the
same cases in both variants and exposes the same payload values. -/
theorem lib_sync_observationally_equivalent {T : Type} (ops : List (Op T)) :
    libRun (Global.new : Global T) ops = syncRun (none : SyncGlobal T) ops :=
  libRun_eq_syncRun ops Global.new none (Or.inl ⟨rfl, rfl⟩)

/-- Split the committed-increments sum at one thread. -/
theorem sum_contrib_split {n : Nat} (ts : Fin n → TState) (t : Fin n) :
    ∑ u, (ts u).contrib =
      (ts t).contrib + ∑ u ∈ Finset.univ.erase t, (ts u).contrib :=
  (Finset.add_sum_erase _ _ (Finset.mem_univ t)).symm

/-- Two thread-state maps that agree away from `t` have the same
committed-increments sum away from `t`. -/
theorem sum_contrib_erase_eq {n : Nat} (ts ts' : Fin n → TState) (t : Fin n)
    (h : ∀ u, u ≠ t → ts' u = ts u) :
    ∑ u ∈ Finset.univ.erase t, (ts' u).contrib =
      ∑ u ∈ Finset.univ.erase t, (ts u).contrib :=
  Finset.sum_congr rfl (fun u hu => by rw [h u (Finset.ne_of_mem_erase hu)])

/-- One interleaving step preserves the inductive invariant. -/
theorem inv_step {n : Nat} {s s' : Sys n} (hinv : Inv s) (hstep : Step s s') : Inv s' := by
  obtain ⟨hlock, hread, hcount⟩ := hinv
  cases hstep with
  | acquire t ts h1 h2 h3 h4 =>
    refine ⟨?_, ?_, ?_⟩ <;> dsimp only
    · intro u hu
      by_cases hut : u = t
      · rw [hut]
      · rw [h4 u hut] at hu
        have := hlock u hu
        rw [h2] at this
        exact Option.noConfusion this
    · intro u v hu
      by_cases hut : u = t
      · rw [hut, h3] at hu
        exact TState.noConfusion hu
      · rw [h4 u hut] at hu
        have := hlock u (by rw [hu]; rfl)
        rw [h2] at this
        exact Option.noConfusion this
    · show s.counter = ∑ u, (ts u).contrib
      rw [sum_contrib_split ts t, sum_contrib_erase_eq s.tstate ts t h4, h3]
      have : s.counter = (s.tstate t).contrib +
          ∑ u ∈ Finset.univ.erase t, (s.tstate u).contrib := by
        rw [hcount, sum_contrib_split s.tstate t]
      rw [h1] at this
      simpa [TState.contrib] using this
  | read t ts h1 h2 h3 h4 =>
    refine ⟨?_, ?_, ?_⟩ <;> dsimp only
    · intro u hu
      by_cases hut : u = t
      · rw [hut]
      · rw [h4 u hut] at hu
        rw [← h2]
        exact hlock u hu
    · intro u v hu
      by_cases hut : u = t
      · rw [hut, h3] at hu
        exact (TState.reading.inj hu).symm
      · rw [h4 u hut] at hu
        exact hread u v hu
    · show s.counter = ∑ u, (ts u).contrib
      rw [sum_contrib_split ts t, sum_contrib_erase_eq s.tstate ts t h4, h3]
      have : s.counter = (s.tstate t).contrib +
          ∑ u ∈ Finset.univ.erase t, (s.tstate u).contrib := by
        rw [hcount, sum_contrib_split s.tstate t]
      rw [h1] at this
      simpa [TState.contrib] using this
  | write t v ts h1 h2 h3 h4 =>
    refine ⟨?_, ?_, ?_⟩ <;> dsimp only
    · intro u hu
      by_cases hut : u = t
      · rw [hut]
      · rw [h4 u hut] at hu
        have := hlock u hu
        rw [h2] at this
        exact absurd (Option.some.inj this) (Ne.symm hut)
    · intro u w hu
      by_cases hut : u = t
      · rw [hut, h3] at hu
        exact TState.noConfusion hu
      · rw [h4 u hut] at hu
        have := hlock u (by rw [hu]; rfl)
        rw [h2] at this
        exact absurd (Option.some.inj this) (Ne.symm hut)
    · show v + 1 = ∑ u, (ts u).contrib
      have hv : v = s.counter := hread t v h1
      rw [sum_contrib_split ts t, sum_contrib_erase_eq s.tstate ts t h4, h3]
      have : s.counter = (s.tstate t).contrib +
          ∑ u ∈ Finset.univ.erase t, (s.tstate u).contrib := by
        rw [hcount, sum_contrib_split s.tstate t]
      rw [h1] at this
      simp only [TState.contrib] at this ⊢
      omega
  | release t ts h1 h2 h3 h4 =>
    refine ⟨?_, ?_, ?_⟩ <;> dsimp only
    · intro u hu
      by_cases hut : u = t
      · rw [hut, h3] at hu
        exact Bool.noConfusion hu
      · rw [h4 u hut] at hu
        have := hlock u hu
        rw [h2] at this
        exact absurd (Option.some.inj this) (Ne.symm hut)
    · intro u w hu
      by_cases hut : u = t
      · rw [hut, h3] at hu
        exact TState.noConfusion hu
      · rw [h4 u hut] at hu
        have := hlock u (by rw [hu]; rfl)
        rw [h2] at this
        exact absurd (Option.some.inj this) (Ne.symm hut)
    · show s.counter = ∑ u, (ts u).contrib
      rw [sum_contrib_split ts t, sum_contrib_erase_eq s.tstate ts t h4, h3]
      have : s.counter = (s.tstate t).contrib +
          ∑ u ∈ Finset.univ.erase t, (s.tstate u).contrib := by
        rw [hcount, sum_contrib_split s.tstate t]
      rw [h1] at this
      simpa [TState.contrib] using this

/-- Every reachable state of the experiment satisfies the invariant. -/
theorem inv_reachable {n : Nat} {s : Sys n} (h : Reachable s) : Inv s := by
  induction h with
  | refl =>
    refine ⟨?_, ?_, ?_⟩
    · intro t ht
      exact Bool.noConfusion ht
    · intro t v ht
      exact TState.noConfusion ht
    · simp [Sys.start, TState.contrib]
  | tail _ hstep ih => exact inv_step ih hstep

/-- C7: in the `n`-thread counter experiment run through `fetch` guards,
every execution in which all threads have finished ends with the counter
exactly `n` (no lost updates), and in every reachable state at most one
thread holds a live guard (mutual exclusion). -/
theorem fetch_guard_mutual_exclusion_counter {n : Nat} (s : Sys n) (h : Reachable s) :
    ((∀ t, s.tstate t = .finished) → s.counter = n) ∧
    (∀ t u : Fin n, (s.tstate t).holdsGuard = true → (s.tstate u).holdsGuard = true →
      t = u) := by
  obtain ⟨hlock, _, hcount⟩ := inv_reachable h
  constructor
  · intro hfin
    rw [hcount]
    calc ∑ t, (s.tstate t).contrib
        = ∑ _t : Fin n, 1 := Finset.sum_congr rfl (fun t _ => by rw [hfin t]; rfl)
      _ = n := by simp
  · intro t u ht hu
    have h1 := hlock t ht
    have h2 := hlock u hu
    rw [h1] at h2
    exact Option.some.inj h2

/-- Witness for C7: one thread acquires the guard, increments the counter
from `0` to `1`, and releases; the final state is reachable, all threads
are finished, and the counter equals the thread count `1`. -/
theorem fetch_guard_mutual_exclusion_counter_witness :
    (⟨none, 1, fun _ => TState.finished⟩ : Sys 1).counter = 1 := by
  have s1 : Step (Sys.start 1) ⟨some 0, 0, fun _ => TState.owner⟩ :=
    Step.acquire _ 0 _ rfl rfl rfl (fun u hu => absurd (Subsingleton.elim u 0) hu)
  have s2 : Step (⟨some 0, 0, fun _ => TState.owner⟩ : Sys 1)
      ⟨some 0, 0, fun _ => TState.reading 0⟩ :=
    Step.read _ 0 _ rfl rfl rfl (fun u hu => absurd (Subsingleton.elim u 0) hu)
  have s3 : Step (⟨some 0, 0, fun _ => TState.reading 0⟩ : Sys 1)
      ⟨some 0, 1, fun _ => TState.wrote⟩ :=
    Step.write _ 0 0 _ rfl rfl rfl (fun u hu => absurd (Subsingleton.elim u 0) hu)
  have s4 : Step (⟨some 0, 1, fun _ => TState.wrote⟩ : Sys 1)
      ⟨none, 1, fun _ => TState.finished⟩ :=
    Step.release _ 0 _ rfl rfl rfl (fun u hu => absurd (Subsingleton.elim u 0) hu)
  have hreach : Reachable (⟨none, 1, fun _ => TState.finished⟩ : Sys 1) :=
    Relation.ReflTransGen.tail
      (Relation.ReflTransGen.tail
        (Relation.ReflTransGen.tail
          (Relation.ReflTransGen.tail Relation.ReflTransGen.refl s1) s2) s3) s4
  exact (fetch_guard_mutual_exclusion_counter _ hreach).1 (fun t => rfl)

/-- Witness for C5: a `Global Nat` cell filled with a poisoned, unlocked
mutex around payload `0`. -/
theorem fetch_on_poisoned_signals_corrupted_witness :
    (Global.cell ⟨some ⟨false, true, 0⟩⟩ = some (⟨false, true, 0⟩ : MutexM Nat)) ∧
    ((⟨false, true, (0 : Nat)⟩ : MutexM Nat).poisoned = true) ∧
    ((⟨false, true, (0 : Nat)⟩ : MutexM Nat).locked = false) ∧
    ((⟨some ⟨false, true, 0⟩⟩ : Global Nat).fetch = .panics .corrupted ∧
      Cond.corrupted ≠ Cond.uninitialized ∧
      Cond.corrupted ≠ Cond.alreadyInitialized ∧
      ∀ v : Nat, (⟨some ⟨false, true, 0⟩⟩ : Global Nat).fetch ≠ .guard v) :=
  ⟨rfl, rfl, rfl,
    fetch_on_poisoned_signals_corrupted ⟨some ⟨false, true, 0⟩⟩ ⟨false, true, 0⟩ rfl rfl rfl⟩

end UglyGlobal
